import Mathlib

/-!
# Verification of the external build-system plugin core

Shallow embedding of `src/cargo/core/external.rs`: the plugin registry
(`ExternalBuildMgr::new`), lookup with "did you mean" suggestions
(`build_system`), the `targets` protocol invocation, and the
`toolchain_hash` extension point.

Strings that are decomposed structurally (filenames, identifiers, paths)
are modelled as `List Char` (abbreviated `Str`); atomic payload strings
(target names, messages, warnings) as Lean `String`.
-/

/-- Strings that get sliced by the code (filenames, identifiers, paths). -/
abbrev Str := List Char

/-- The two platforms distinguished by `#[cfg(unix)]` / `#[cfg(windows)]`. -/
inductive Platform
  | unix
  | windows
deriving DecidableEq

/-- Embeds `env::consts::EXE_SUFFIX`: empty on unix, `.exe` on windows. -/
def Platform.exe_suffix : Platform → Str
  | .unix => []
  | .windows => ".exe".data

/-- Result of `fs::metadata` for one path: file kind and unix permission mode. -/
structure FileMeta where
  is_file : Bool
  mode : Nat
deriving DecidableEq

/-- Embeds `is_executable` from `external.rs`: on unix a regular file with at least one
of the `0o111` permission bits; on windows just a regular file. A `none`
metadata models an `fs::metadata` error (`unwrap_or(false)`). -/
def is_executable (p : Platform) (meta : Option FileMeta) : Bool :=
  match p with
  | .unix =>
    match meta with
    | some metadata => metadata.is_file && decide (Nat.land metadata.mode 0o111 ≠ 0)
    | none => false
  | .windows =>
    match meta with
    | some metadata => metadata.is_file
    | none => false

/-- Embeds `BuildSystem` from `external.rs`: resolved executable path and toolchain hash. -/
structure BuildSystem where
  path : Str
  hash : Nat
deriving DecidableEq

/-- Embeds `BuildSystem::new`: stores the path and the placeholder hash `0` (`// TODO: FIXME`). -/
def BuildSystem.new (path : Str) : BuildSystem :=
  { path := path, hash := 0 }

/-- One directory entry as discovery sees it: `path.file_name().and_then(to_str)`
(`none` models a missing or non-UTF-8 filename) and the `fs::metadata` of the
entry's path, consumed by `is_executable`. -/
structure DirEntry where
  filename : Option Str
  meta : Option FileMeta
deriving DecidableEq

/-- One search-path directory: its path and the outcome of `fs::read_dir`.
`entries = none` models an unreadable directory; an inner `none` models a
directory entry that errored (both flattened away by the code). -/
structure Dir where
  path : Str
  entries : Option (List (Option DirEntry))

/-- Embeds `fs::read_dir(dir).into_iter().flatten().flatten()`. -/
def readEntries (d : Dir) : List DirEntry :=
  (d.entries.getD []).reduceOption

/-- The fixed discovery filename prefix `"cargobuild-"`. -/
def pfxStr : Str := "cargobuild-".data

/-- Association-list model of the `HashMap<String, BuildSystem>`: `insert`
replaces any existing binding for the key. -/
def assocInsert (m : List (Str × BuildSystem)) (k : Str) (v : BuildSystem) :
    List (Str × BuildSystem) :=
  (m.filter fun p => p.1 ≠ k) ++ [(k, v)]

/-- Embeds `HashMap::get` on the association-list model. -/
def assocGet (m : List (Str × BuildSystem)) (k : Str) : Option BuildSystem :=
  (m.find? fun p => p.1 = k).map Prod.snd

/-- Embeds `ExternalBuildMgr` from `external.rs`. -/
structure ExternalBuildMgr where
  build_systems : List (Str × BuildSystem)

/-- The body of the inner discovery loop of `ExternalBuildMgr::new`: skip
entries without a UTF-8 filename, skip filenames that do not start with the
prefix or do not end with the platform exe suffix, skip non-executables, else
strip prefix and suffix to get the identifier and insert the handle. -/
def registerEntry (p : Platform) (dirPath : Str)
    (bs : List (Str × BuildSystem)) (entry : DirEntry) :
    List (Str × BuildSystem) :=
  match entry.filename with
  | none => bs
  | some filename =>
    if !(List.isPrefixOf pfxStr filename) || !(List.isSuffixOf p.exe_suffix filename) then
      bs
    else if is_executable p entry.meta then
      let e := filename.length - p.exe_suffix.length
      let build_id := (filename.drop pfxStr.length).take (e - pfxStr.length)
      assocInsert bs build_id (BuildSystem.new (dirPath ++ '/' :: filename))
    else
      bs

/-- Embeds `ExternalBuildMgr::new`: fold the discovery loop over the ordered search
paths, a directory's entries in their listed order. -/
def ExternalBuildMgr.new (p : Platform) (search_paths : List Dir) : ExternalBuildMgr :=
  { build_systems :=
      search_paths.foldl
        (fun bs dir => (readEntries dir).foldl (registerEntry p dir.path) bs) [] }

/-- Levenshtein edit distance between two character lists. -/
def lev : Str → Str → Nat
  | [], ys => ys.length
  | x :: xs, [] => (x :: xs).length
  | x :: xs, y :: ys =>
    if x = y then lev xs ys
    else 1 + min (lev xs (y :: ys)) (min (lev (x :: xs) ys) (lev xs ys))
termination_by xs ys => xs.length + ys.length

/-- Modelled from the spec: the "small lexical-edit-distance threshold" used
by the suggestion layer (`closest_msg` lives in `crate::util`, outside the
given sources). -/
def levThreshold : Nat := 2

/-- Scan for the candidate at minimal edit distance from `target`, keeping the
earliest candidate on ties. -/
def closestScan (target : Str) : List Str → Option (Nat × Str)
  | [] => none
  | c :: cs =>
    let d := lev target c
    match closestScan target cs with
    | none => some (d, c)
    | some (d', c') => if d ≤ d' then some (d, c) else some (d', c')

/-- Modelled from the spec: `closest_msg` (in `crate::util`, not under the
given sources) returns a single best "did you mean" suggestion when some
candidate is within the lexical-edit-distance threshold of the target, and
no suggestion otherwise. -/
def closest_msg (target : Str) (candidates : List Str) : Option Str :=
  match closestScan target candidates with
  | none => none
  | some (d, c) => if d ≤ levThreshold then some c else none

/-- The error channel of `CargoResult`: one constructor per `format_err!` /
`bail!` / `.with_context` site of `external.rs`, carrying exactly the data
interpolated into the message there. -/
inductive CargoError
  | unknownBuildSystem (build_id : Str) (suggestion : Option Str)
  | couldNotLaunch (path : Str)
  | requestWriteError
  | outputReadError
  | invalidTargetResult (path : Str)
  | failedToTerminate (path : Str)
  | exitedWith (path : Str) (code : Int)
  | inBandFailure (message : String)
deriving DecidableEq

/-- Embeds `ExternalBuildMgr::build_system`: look the identifier up; on a miss build
the `Unknown build system {id}{did_you_mean}` error, the suggestion computed
by `closest_msg` over the registered identifiers. -/
def ExternalBuildMgr.build_system (mgr : ExternalBuildMgr) (build_id : Str) :
    Except CargoError BuildSystem :=
  match assocGet mgr.build_systems build_id with
  | some r => .ok r
  | none =>
    .error (.unknownBuildSystem build_id
      (closest_msg build_id (mgr.build_systems.map Prod.fst)))

/-- Embeds `ExternalBuildMgr::toolchain_hash`: the stored hash of the resolved handle. -/
def ExternalBuildMgr.toolchain_hash (mgr : ExternalBuildMgr) (build_id : Str) :
    Except CargoError Nat :=
  (mgr.build_system build_id).map BuildSystem.hash

/-- Embeds `ExtTargetKind` from `external.rs`. -/
inductive ExtTargetKind
  | Bin
  | Lib
deriving DecidableEq

/-- Embeds `ExtTarget` from `external.rs`: one target descriptor of the wire schema. -/
structure ExtTarget where
  kind : ExtTargetKind
  name : String
  src_path : String
deriving DecidableEq

/-- Embeds `TargetResult` from `external.rs`: the tagged response union. -/
inductive TargetResult
  | Success (targets : List ExtTarget) (warnings : List String) (errors : List String)
  | Failure (message : String)
deriving DecidableEq

/-- Embeds `CrateType`: only the `Lib` kind is used by this module. -/
inductive CrateType
  | Lib
deriving DecidableEq

/-- Embeds `Edition`: the module fixes `Edition2021` for every produced target. -/
inductive Edition
  | Edition2021
deriving DecidableEq

/-- Modelled from the spec: the host target kind — the host `Target` type and
its `bin_target` / `lib_target` constructors are not under the given sources.
A binary target carries no explicit crate-type list; a library target carries
its crate kinds. -/
inductive HostTargetKind
  | BinKind (crate_types : Option (List CrateType))
  | LibKind (crate_types : List CrateType)
deriving DecidableEq

/-- Modelled from the spec: the host's internal target abstraction, the image
of `Target::bin_target` / `Target::lib_target`. -/
structure Target where
  kind : HostTargetKind
  name : String
  src_path : String
  edition : Edition
deriving DecidableEq

/-- Modelled from the spec: `Target::bin_target` (host side, outside the given
sources) — a binary target with a name, source path, optional crate-type list
and edition. -/
def Target.bin_target (name : String) (src_path : String)
    (crate_types : Option (List CrateType)) (edition : Edition) : Target :=
  { kind := .BinKind crate_types, name := name, src_path := src_path, edition := edition }

/-- Modelled from the spec: `Target::lib_target` (host side, outside the given
sources) — a library target with its crate kinds, source path and edition. -/
def Target.lib_target (name : String) (crate_types : List CrateType)
    (src_path : String) (edition : Edition) : Target :=
  { kind := .LibKind crate_types, name := name, src_path := src_path, edition := edition }

/-- Embeds `ExtTarget::mk_target`: `Bin` maps to `bin_target(name, src_path, None,
Edition2021)`, `Lib` to `lib_target(name, vec![CrateType::Lib], src_path,
Edition2021)`. -/
def ExtTarget.mk_target (t : ExtTarget) : Except CargoError Target :=
  match t.kind with
  | .Bin => .ok (Target.bin_target t.name t.src_path none .Edition2021)
  | .Lib => .ok (Target.lib_target t.name [CrateType.Lib] t.src_path .Edition2021)

/-- The `for tgt in j_tgts { targets.push(tgt.mk_target()?); }` loop. -/
def mkTargets : List ExtTarget → Except CargoError (List Target)
  | [] => .ok []
  | t :: ts => do
    let tgt ← t.mk_target
    let rest ← mkTargets ts
    .ok (tgt :: rest)

/-- Embeds `TargetRequest` from `external.rs`. -/
structure TargetRequest where
  package_name : String
  package_root : String

/-- A `Stdio` configuration as set on a `Command` before spawning. -/
inductive StdioCfg
  | piped
  | null
  | inherit
deriving DecidableEq

/-- The `Command` the code assembles before spawning: program, arguments,
whether `env_clear` was called, and the three stdio configurations. -/
structure SpawnCommand where
  program : Str
  args : List String
  env_cleared : Bool
  stdin_cfg : StdioCfg
  stdout_cfg : StdioCfg
  stderr_cfg : StdioCfg

/-- The observable behaviour of one child process: whether writing the
serialized request to its stdin pipe succeeds, what reading its stdout to
EOF yields (`none` = I/O error), and what `wait()` yields (`none` = wait
error, `some c` = exit status with code `c`). -/
structure ChildIO where
  writeOk : Bool
  readResult : Option String
  waitResult : Option Int

/-- A spawned child: the optional stdin/stdout handles (`Option`, as in
`std::process::Child`) plus its I/O behaviour. -/
structure Child where
  stdin : Option Unit
  stdout : Option Unit
  io : ChildIO

/-- The operating-system environment of one invocation: whether spawning
succeeds (and the resulting child behaviour), and how `serde_json::from_str`
decodes the captured stdout (`none` = not a well-formed `TargetResult`). -/
structure OsEnv where
  spawn : Option ChildIO
  parse : String → Option TargetResult

/-- Embeds `Command::spawn` semantics: a handle is present exactly for the streams
configured as `Stdio::piped()`. -/
def spawnChild (cmd : SpawnCommand) (os : OsEnv) : Option Child :=
  os.spawn.map fun cio =>
    { stdin := if cmd.stdin_cfg = .piped then some () else none
      stdout := if cmd.stdout_cfg = .piped then some () else none
      io := cio }

/-- Everything `targets` hands back: the `CargoResult`, the two caller
accumulators after the call, and the process-lifecycle trace — whether a
child was spawned and whether `child.wait()` was ever called before
returning. -/
structure TargetsOutcome where
  result : Except CargoError (List Target)
  warnings : List String
  errors : List String
  spawned : Bool
  waited : Bool

/-- Embeds `ExternalBuildMgr::targets`, step for step: resolve the identifier, build
the command (`targets` verb, cleared environment, piped stdin/stdout, null
stderr), spawn, take and unwrap the stdin handle, serialize the request,
take and unwrap the stdout handle, read it to EOF, parse the response with
the path-contextualized error, wait and fail on a non-zero exit, and finally
interpret the response variant. An outer `none` models a panic of one of the
two `unwrap()` calls; every early `return`/`?` exit records whether the child
had been waited on. -/
def ExternalBuildMgr.targets (mgr : ExternalBuildMgr) (build_id : Str)
    (package_name : String) (package_root : String) (os : OsEnv)
    (warnings errors : List String) : Option TargetsOutcome :=
  match mgr.build_system build_id with
  | .error e => some ⟨.error e, warnings, errors, false, false⟩
  | .ok runner =>
    let command : SpawnCommand :=
      { program := runner.path, args := ["targets"], env_cleared := true,
        stdin_cfg := .piped, stdout_cfg := .piped, stderr_cfg := .null }
    match spawnChild command os with
    | none => some ⟨.error (.couldNotLaunch runner.path), warnings, errors, false, false⟩
    | some child =>
      match child.stdin with
      | none => none
      | some _stdin =>
        let _req : TargetRequest :=
          { package_name := package_name, package_root := package_root }
        if !child.io.writeOk then
          some ⟨.error .requestWriteError, warnings, errors, true, false⟩
        else
          match child.stdout with
          | none => none
          | some _stdout =>
            match child.io.readResult with
            | none => some ⟨.error .outputReadError, warnings, errors, true, false⟩
            | some buffer =>
              match os.parse buffer with
              | none =>
                some ⟨.error (.invalidTargetResult runner.path), warnings, errors,
                  true, false⟩
              | some json_result =>
                match child.io.waitResult with
                | none =>
                  some ⟨.error (.failedToTerminate runner.path), warnings, errors,
                    true, true⟩
                | some ecode =>
                  if ecode ≠ 0 then
                    some ⟨.error (.exitedWith runner.path ecode), warnings, errors,
                      true, true⟩
                  else
                    match json_result with
                    | .Success j_tgts j_warnings j_errors =>
                      match mkTargets j_tgts with
                      | .error e => some ⟨.error e, warnings, errors, true, true⟩
                      | .ok tgts =>
                        some ⟨.ok tgts, warnings ++ j_warnings, errors ++ j_errors,
                          true, true⟩
                    | .Failure message =>
                      some ⟨.error (.inBandFailure message), warnings, errors,
                        true, true⟩

/-! ## Concrete fixtures used by witnesses and counterexamples -/

/-- A discoverable python plugin file with `rwxr-xr-x` permissions. -/
def pyFile : DirEntry :=
  { filename := some "cargobuild-python".data, meta := some ⟨true, 0o755⟩ }

/-- A discoverable go plugin file with `rwxr-xr-x` permissions. -/
def goFile : DirEntry :=
  { filename := some "cargobuild-go".data, meta := some ⟨true, 0o755⟩ }

/-- A search-path directory holding the python plugin. -/
def pluginsDir : Dir := { path := "/plugins".data, entries := some [some pyFile] }

/-- A search-path directory holding the go plugin. -/
def toolsDir : Dir := { path := "/tools".data, entries := some [some goFile] }

/-- Registry discovered from `[pluginsDir]` on unix. -/
def mgrOne : ExternalBuildMgr := ExternalBuildMgr.new .unix [pluginsDir]

/-- Registry discovered from `[pluginsDir, toolsDir]` on unix. -/
def mgrTwo : ExternalBuildMgr := ExternalBuildMgr.new .unix [pluginsDir, toolsDir]

/-- The identifier stripped from `cargobuild-python`. -/
def pyId : Str := "python".data

/-- The identifier stripped from `cargobuild-go`. -/
def goId : Str := "go".data

/-- The registered path of the python plugin. -/
def pyPath : Str := "/plugins/cargobuild-python".data

/-- A `Bin` target descriptor. -/
def tgtFoo : ExtTarget := { kind := .Bin, name := "foo", src_path := "src/main" }

/-- A `Lib` target descriptor. -/
def tgtBar : ExtTarget := { kind := .Lib, name := "bar", src_path := "src/lib" }

/-- Child behaviour: request written, output read, exit code 1. -/
def cioExit1 : ChildIO := { writeOk := true, readResult := some "out", waitResult := some 1 }

/-- Child behaviour: request written, output read, exit code 0. -/
def cioExit0 : ChildIO := { writeOk := true, readResult := some "out", waitResult := some 0 }

/-- Environment: spawn succeeds, exit 1, stdout decodes as a `Success` body. -/
def osExit1 : OsEnv :=
  { spawn := some cioExit1, parse := fun _ => some (.Success [tgtFoo] [] []) }

/-- Environment: spawn succeeds, exit 0, stdout decodes as a `Success` body. -/
def osExit0 : OsEnv :=
  { spawn := some cioExit0, parse := fun _ => some (.Success [tgtFoo, tgtBar] ["w1"] ["e1"]) }

/-- Environment: spawn succeeds, exit 0, stdout does not decode. -/
def osBadParse : OsEnv := { spawn := some cioExit0, parse := fun _ => none }

/-- Environment: spawn succeeds, exit 0, stdout decodes as an in-band `Failure`. -/
def osFailure : OsEnv :=
  { spawn := some cioExit0, parse := fun _ => some (.Failure "missing sources") }

/-! ## Helper lemmas -/

/-- Since `mk_target` never fails, so the conversion loop is a plain map. -/
theorem mkTargets_eq_map (ts : List ExtTarget) :
    mkTargets ts = .ok (ts.map fun t =>
      match t.kind with
      | .Bin => Target.bin_target t.name t.src_path none .Edition2021
      | .Lib => Target.lib_target t.name [CrateType.Lib] t.src_path .Edition2021) := by
  induction ts with
  | nil => rfl
  | cons t ts ih =>
    cases ht : t.kind <;>
      simp [mkTargets, ExtTarget.mk_target, ht, ih, Bind.bind, Except.bind]

/-- Membership after `assocInsert`: an entry was there before or is the new one. -/
theorem mem_assocInsert {m : List (Str × BuildSystem)} {k : Str} {v : BuildSystem}
    {kv : Str × BuildSystem} (h : kv ∈ assocInsert m k v) : kv ∈ m ∨ kv = (k, v) := by
  unfold assocInsert at h
  rcases List.mem_append.mp h with h' | h'
  · exact Or.inl (List.mem_of_mem_filter h')
  · exact Or.inr (List.mem_singleton.mp h')

/-- Every entry added by the discovery loop body carries the placeholder hash 0. -/
theorem mem_registerEntry {p : Platform} {dp : Str} {bs : List (Str × BuildSystem)}
    {e : DirEntry} {kv : Str × BuildSystem} (h : kv ∈ registerEntry p dp bs e) :
    kv ∈ bs ∨ kv.2.hash = 0 := by
  unfold registerEntry at h
  split at h
  · exact Or.inl h
  · split at h
    · exact Or.inl h
    · split at h
      · rcases mem_assocInsert h with h' | h'
        · exact Or.inl h'
        · exact Or.inr (by rw [h']; rfl)
      · exact Or.inl h

/-- Every entry of a registry built by discovery carries the placeholder hash 0. -/
theorem new_hash_zero (p : Platform) (dirs : List Dir) :
    ∀ kv ∈ (ExternalBuildMgr.new p dirs).build_systems, kv.2.hash = 0 := by
  unfold ExternalBuildMgr.new
  suffices h : ∀ (ds : List Dir) (bs : List (Str × BuildSystem)),
      (∀ kv ∈ bs, kv.2.hash = 0) →
      ∀ kv ∈ ds.foldl
        (fun bs dir => (readEntries dir).foldl (registerEntry p dir.path) bs) bs,
        kv.2.hash = 0 by
    exact h dirs [] (by simp)
  intro ds
  induction ds with
  | nil => intro bs hbs kv hkv; exact hbs kv hkv
  | cons d ds ih =>
    intro bs hbs kv hkv
    refine ih _ ?_ kv hkv
    suffices h : ∀ (es : List DirEntry) (bs : List (Str × BuildSystem)),
        (∀ kv ∈ bs, kv.2.hash = 0) →
        ∀ kv ∈ es.foldl (registerEntry p d.path) bs, kv.2.hash = 0 by
      exact h (readEntries d) bs hbs
    intro es
    induction es with
    | nil => intro bs hbs kv hkv; exact hbs kv hkv
    | cons e es ihe =>
      intro bs hbs kv hkv
      refine ihe _ ?_ kv hkv
      intro kv' hkv'
      rcases mem_registerEntry hkv' with h' | h'
      · exact hbs kv' h'
      · exact h'

/-- A hit in `assocGet` is a membership. -/
theorem assocGet_mem {m : List (Str × BuildSystem)} {k : Str} {v : BuildSystem}
    (h : assocGet m k = some v) : ∃ k', (k', v) ∈ m := by
  unfold assocGet at h
  rcases hf : m.find? fun p => p.1 = k with _ | kv
  · rw [hf] at h; cases h
  · rw [hf] at h
    refine ⟨kv.1, ?_⟩
    have hm := List.mem_of_find?_eq_some hf
    cases h
    exact hm

/-- Evaluating `assocGet` on a cons. -/
theorem assocGet_cons (kv : Str × BuildSystem) (m : List (Str × BuildSystem))
    (k : Str) :
    assocGet (kv :: m) k = if kv.1 = k then some kv.2 else assocGet m k := by
  unfold assocGet
  by_cases h : kv.1 = k
  · rw [List.find?_cons_of_pos _ (by simp [h]), if_pos h]; rfl
  · rw [List.find?_cons_of_neg _ (by simp [h]), if_neg h]

/-- Evaluating `assocGet` through an appended singleton. -/
theorem assocGet_append_single (m : List (Str × BuildSystem)) (k k' : Str)
    (v : BuildSystem) :
    assocGet (m ++ [(k, v)]) k' =
      match assocGet m k' with
      | some w => some w
      | none => if k = k' then some v else none := by
  induction m with
  | nil => simp only [List.nil_append, assocGet_cons]; rfl
  | cons kv m ih =>
    rw [List.cons_append, assocGet_cons, assocGet_cons]
    by_cases hkv : kv.1 = k'
    · rw [if_pos hkv, if_pos hkv]
    · rw [if_neg hkv, if_neg hkv, ih]

/-- The filter inside `assocInsert` erases the key being inserted. -/
theorem assocGet_filter_self (m : List (Str × BuildSystem)) (k : Str) :
    assocGet (m.filter fun p => p.1 ≠ k) k = none := by
  induction m with
  | nil => rfl
  | cons kv m ih =>
    rw [List.filter_cons]
    by_cases hk : kv.1 = k
    · rw [if_neg (show ¬(decide (kv.1 ≠ k) = true) by simp [hk])]
      exact ih
    · rw [if_pos (show decide (kv.1 ≠ k) = true by simp [hk]),
        assocGet_cons, if_neg hk]
      exact ih

/-- The filter inside `assocInsert` keeps every other key's binding. -/
theorem assocGet_filter_ne (m : List (Str × BuildSystem)) (k k' : Str)
    (h : k' ≠ k) :
    assocGet (m.filter fun p => p.1 ≠ k) k' = assocGet m k' := by
  induction m with
  | nil => rfl
  | cons kv m ih =>
    rw [List.filter_cons]
    by_cases hk : kv.1 = k
    · have hkv' : ¬(kv.1 = k') := by rw [hk]; exact fun he => h he.symm
      rw [if_neg (show ¬(decide (kv.1 ≠ k) = true) by simp [hk]), ih,
        assocGet_cons, if_neg hkv']
    · rw [if_pos (show decide (kv.1 ≠ k) = true by simp [hk]),
        assocGet_cons, assocGet_cons, ih]

/-- Evaluating `assocGet` after `assocInsert` at the inserted key. -/
theorem assocGet_assocInsert_self (m : List (Str × BuildSystem)) (k : Str)
    (v : BuildSystem) : assocGet (assocInsert m k v) k = some v := by
  unfold assocInsert
  rw [assocGet_append_single, assocGet_filter_self, if_pos rfl]

/-- Evaluating `assocGet` after `assocInsert` at another key. -/
theorem assocGet_assocInsert_ne (m : List (Str × BuildSystem)) (k k' : Str)
    (v : BuildSystem) (h : k' ≠ k) :
    assocGet (assocInsert m k v) k' = assocGet m k' := by
  unfold assocInsert
  rw [assocGet_append_single, assocGet_filter_ne _ _ _ h,
    if_neg (fun he => h he.symm)]
  cases assocGet m k' <;> rfl

/-- What one directory entry contributes for a given identifier: the handle
it would register under exactly that identifier, if it qualifies. -/
def entryRegisters (p : Platform) (dp : Str) (e : DirEntry) (k : Str) :
    Option BuildSystem :=
  match e.filename with
  | none => none
  | some fn =>
    if !(List.isPrefixOf pfxStr fn) || !(List.isSuffixOf p.exe_suffix fn) then none
    else if is_executable p e.meta then
      if (fn.drop pfxStr.length).take (fn.length - p.exe_suffix.length - pfxStr.length) = k
      then some (BuildSystem.new (dp ++ '/' :: fn)) else none
    else none

/-- The binding an entry list leaves for `k`, the last qualifying entry winning. -/
def dirScan (p : Platform) (dp : Str) (k : Str) : List DirEntry → Option BuildSystem
  | [] => none
  | e :: es =>
    match dirScan p dp k es with
    | some v => some v
    | none => entryRegisters p dp e k

/-- The binding a directory list leaves for `k`, the last qualifying directory
winning. -/
def dirsScan (p : Platform) (k : Str) : List Dir → Option BuildSystem
  | [] => none
  | d :: ds =>
    match dirsScan p k ds with
    | some v => some v
    | none => dirScan p d.path k (readEntries d)

/-- One discovery step changes a lookup exactly as `entryRegisters` says. -/
theorem assocGet_registerEntry (p : Platform) (dp : Str)
    (bs : List (Str × BuildSystem)) (e : DirEntry) (k : Str) :
    assocGet (registerEntry p dp bs e) k =
      match entryRegisters p dp e k with
      | some v => some v
      | none => assocGet bs k := by
  cases hfn : e.filename with
  | none => simp [registerEntry, entryRegisters, hfn]
  | some fn =>
    simp only [registerEntry, entryRegisters, hfn]
    by_cases hpre : (!List.isPrefixOf pfxStr fn || !List.isSuffixOf p.exe_suffix fn) = true
    · simp [hpre]
    · by_cases hex : is_executable p e.meta = true
      · by_cases hid :
            (fn.drop pfxStr.length).take (fn.length - p.exe_suffix.length - pfxStr.length) = k
        · simp only [if_neg hpre, if_pos hex, if_pos hid, hid]
          rw [assocGet_assocInsert_self]
          simp
        · simp only [if_neg hpre, if_pos hex, if_neg hid]
          rw [assocGet_assocInsert_ne _ _ _ _ (fun h => hid h.symm)]
      · simp only [if_neg hpre, if_neg hex]

/-- Folding the discovery body over an entry list changes a lookup exactly as
`dirScan` says. -/
theorem assocGet_foldl_registerEntry (p : Platform) (dp : Str)
    (es : List DirEntry) (bs : List (Str × BuildSystem)) (k : Str) :
    assocGet (es.foldl (registerEntry p dp) bs) k =
      match dirScan p dp k es with
      | some v => some v
      | none => assocGet bs k := by
  induction es generalizing bs with
  | nil => rfl
  | cons e es ih =>
    rw [List.foldl_cons, ih]
    simp only [dirScan]
    cases hds : dirScan p dp k es with
    | some v => rfl
    | none => simp only [assocGet_registerEntry]

/-- Discovery (`ExternalBuildMgr::new`) resolves a lookup exactly as `dirsScan` says. -/
theorem assocGet_new (p : Platform) (ds : List Dir) (k : Str) :
    assocGet (ExternalBuildMgr.new p ds).build_systems k = dirsScan p k ds := by
  unfold ExternalBuildMgr.new
  suffices h : ∀ (ds : List Dir) (bs : List (Str × BuildSystem)),
      assocGet (ds.foldl
        (fun bs dir => (readEntries dir).foldl (registerEntry p dir.path) bs) bs) k =
      match dirsScan p k ds with
      | some v => some v
      | none => assocGet bs k by
    rw [h ds []]
    cases hds : dirsScan p k ds with
    | some v => rfl
    | none => rfl
  intro ds
  induction ds with
  | nil => intro bs; rfl
  | cons d ds ih =>
    intro bs
    rw [List.foldl_cons, ih]
    simp only [dirsScan]
    cases hds : dirsScan p k ds with
    | some v => rfl
    | none => simp only [assocGet_foldl_registerEntry]

/-- The discovery prefix and the platform exe suffix can never overlap inside
one filename: a filename passing both checks is at least as long as both
together. On unix the suffix is empty; on windows `.exe` starts with a dot
and `cargobuild-` contains none. -/
theorem no_overlap {p : Platform} {fn : Str}
    (hpre : pfxStr <+: fn) (hsuf : p.exe_suffix <:+ fn) :
    pfxStr.length + p.exe_suffix.length ≤ fn.length := by
  cases p with
  | unix => simpa [Platform.exe_suffix] using hpre.length_le
  | windows =>
    by_contra hlt
    push_neg at hlt
    obtain ⟨r, rfl⟩ := hpre
    have hplen : pfxStr.length = 11 := by decide
    have hslen : (Platform.exe_suffix .windows).length = 4 := by decide
    have hrlen : r.length < 4 := by
      rw [List.length_append, hplen, hslen] at hlt; omega
    have hs := List.suffix_iff_eq_drop.mp hsuf
    rw [List.length_append, hplen, hslen] at hs
    have hidx : 11 + r.length - 4 = 7 + r.length := by omega
    rw [hidx, List.drop_append_eq_append_drop] at hs
    have hne : pfxStr.drop (7 + r.length) ≠ [] := by
      intro he
      have hl := congrArg List.length he
      rw [List.length_drop, hplen, List.length_nil] at hl
      omega
    have hhead := congrArg List.head? hs
    rw [List.head?_append_of_ne_nil _ hne] at hhead
    have hmem : ('.' : Char) ∈ pfxStr := by
      have hh : (pfxStr.drop (7 + r.length)).head? = some '.' := by
        rw [← hhead]
        rfl
      exact List.mem_of_mem_drop (List.mem_of_mem_head? hh)
    simp [pfxStr] at hmem

/-- Stripping the prefix and the suffix off an exactly decomposed filename,
the way the code slices, gives back the identifier. -/
theorem strip_decomposition (p : Platform) (id : Str) :
    ((pfxStr ++ id ++ p.exe_suffix).drop pfxStr.length).take
      ((pfxStr ++ id ++ p.exe_suffix).length - p.exe_suffix.length - pfxStr.length)
      = id := by
  have h1 : (pfxStr ++ id ++ p.exe_suffix).drop pfxStr.length = id ++ p.exe_suffix := by
    rw [List.append_assoc, List.drop_left]
  have h2 : (pfxStr ++ id ++ p.exe_suffix).length - p.exe_suffix.length - pfxStr.length
      = id.length := by
    simp only [List.length_append]
    omega
  rw [h1, h2, List.take_left]

/-- An exactly decomposed filename passes both filename checks. -/
theorem checks_of_decomposition (p : Platform) (id : Str) :
    List.isPrefixOf pfxStr (pfxStr ++ id ++ p.exe_suffix) = true ∧
    List.isSuffixOf p.exe_suffix (pfxStr ++ id ++ p.exe_suffix) = true := by
  constructor
  · rw [List.isPrefixOf_iff_prefix, List.append_assoc]
    exact List.prefix_append _ _
  · rw [List.isSuffixOf_iff_suffix]
    exact List.suffix_append _ _

/-- A filename passing both checks is exactly
`prefix ++ stripped-identifier ++ suffix`. -/
theorem filename_decomposition {p : Platform} {fn : Str}
    (hpre : List.isPrefixOf pfxStr fn = true)
    (hsuf : List.isSuffixOf p.exe_suffix fn = true) :
    fn = pfxStr ++
      ((fn.drop pfxStr.length).take (fn.length - p.exe_suffix.length - pfxStr.length))
      ++ p.exe_suffix := by
  have hpre' : pfxStr <+: fn := List.isPrefixOf_iff_prefix.mp hpre
  have hsuf' : p.exe_suffix <:+ fn := List.isSuffixOf_iff_suffix.mp hsuf
  have hlen := no_overlap hpre' hsuf'
  obtain ⟨r, rfl⟩ := hpre'
  have hrlen : p.exe_suffix.length ≤ r.length := by
    rw [List.length_append] at hlen; omega
  have hs := List.suffix_iff_eq_drop.mp hsuf'
  have hidx : (pfxStr ++ r).length - p.exe_suffix.length
      = pfxStr.length + (r.length - p.exe_suffix.length) := by
    rw [List.length_append]; omega
  rw [hidx, List.drop_append] at hs
  have htake : (pfxStr ++ r).length - p.exe_suffix.length - pfxStr.length
      = r.length - p.exe_suffix.length := by
    rw [List.length_append]; omega
  rw [List.drop_left, htake, List.append_assoc]
  congr 1
  conv_lhs => rw [← List.take_append_drop (r.length - p.exe_suffix.length) r]
  rw [← hs]

/-- Elimination: everything that must hold of an entry that registers an
identifier. -/
theorem entryRegisters_eq_some {p : Platform} {dp : Str} {e : DirEntry} {k : Str}
    {v : BuildSystem} (h : entryRegisters p dp e k = some v) :
    ∃ fn, e.filename = some fn ∧
      List.isPrefixOf pfxStr fn = true ∧
      List.isSuffixOf p.exe_suffix fn = true ∧
      is_executable p e.meta = true ∧
      (fn.drop pfxStr.length).take (fn.length - p.exe_suffix.length - pfxStr.length) = k ∧
      v = BuildSystem.new (dp ++ '/' :: fn) := by
  unfold entryRegisters at h
  cases hfn : e.filename with
  | none => rw [hfn] at h; cases h
  | some fn =>
    rw [hfn] at h
    simp only [] at h
    by_cases hpre : (!List.isPrefixOf pfxStr fn || !List.isSuffixOf p.exe_suffix fn) = true
    · rw [if_pos hpre] at h; cases h
    · rw [if_neg hpre] at h
      by_cases hex : is_executable p e.meta = true
      · rw [if_pos hex] at h
        by_cases hid :
            (fn.drop pfxStr.length).take (fn.length - p.exe_suffix.length - pfxStr.length) = k
        · rw [if_pos hid] at h
          refine ⟨fn, rfl, ?_, ?_, hex, hid, ?_⟩
          · rcases Bool.not_eq_true _ ▸ hpre with h'
            simp only [Bool.or_eq_false_iff, Bool.not_eq_true'] at h'
            · simpa using h'.1
          · have h' := Bool.not_eq_true _ ▸ hpre
            simp only [Bool.or_eq_false_iff, Bool.not_eq_true'] at h'
            simpa using h'.2
          · exact (Option.some.injEq _ _ ▸ h).symm
        · rw [if_neg hid] at h; cases h
      · rw [if_neg hex] at h; cases h

/-- Introduction: a well-formed executable entry registers exactly its
identifier, binding it to the joined path. -/
theorem entryRegisters_intro (p : Platform) (dp : Str) (e : DirEntry)
    (id fn : Str) (hfn : e.filename = some fn)
    (hdec : fn = pfxStr ++ id ++ p.exe_suffix)
    (hex : is_executable p e.meta = true) :
    entryRegisters p dp e id = some (BuildSystem.new (dp ++ '/' :: fn)) := by
  subst hdec
  obtain ⟨h1, h2⟩ := checks_of_decomposition p id
  unfold entryRegisters
  rw [hfn]
  simp only []
  rw [if_neg (by rw [h1, h2]; decide), if_pos hex, if_pos (strip_decomposition p id)]

/-- Elimination for `dirScan`: a binding comes from some entry of the list. -/
theorem dirScan_eq_some {p : Platform} {dp k : Str} {es : List DirEntry}
    {v : BuildSystem} (h : dirScan p dp k es = some v) :
    ∃ e ∈ es, entryRegisters p dp e k = some v := by
  induction es with
  | nil => cases h
  | cons e es ih =>
    simp only [dirScan] at h
    cases hds : dirScan p dp k es with
    | some w =>
      rw [hds] at h
      obtain ⟨e', he', hr⟩ := ih (hds.trans h)
      exact ⟨e', List.mem_cons_of_mem _ he', hr⟩
    | none =>
      rw [hds] at h
      exact ⟨e, List.mem_cons_self _ _, h⟩

/-- Elimination for `dirsScan`: a binding comes from some directory. -/
theorem dirsScan_eq_some {p : Platform} {k : Str} {ds : List Dir}
    {v : BuildSystem} (h : dirsScan p k ds = some v) :
    ∃ d ∈ ds, dirScan p d.path k (readEntries d) = some v := by
  induction ds with
  | nil => cases h
  | cons d ds ih =>
    simp only [dirsScan] at h
    cases hds : dirsScan p k ds with
    | some w =>
      rw [hds] at h
      obtain ⟨d', hd', hr⟩ := ih (hds.trans h)
      exact ⟨d', List.mem_cons_of_mem _ hd', hr⟩
    | none =>
      rw [hds] at h
      exact ⟨d, List.mem_cons_self _ _, h⟩

/-- Introduction for `dirScan`: a registering entry makes the scan hit. -/
theorem dirScan_isSome_of_mem {p : Platform} {dp k : Str} {es : List DirEntry}
    {e : DirEntry} (he : e ∈ es) {v : BuildSystem}
    (hr : entryRegisters p dp e k = some v) :
    ∃ w, dirScan p dp k es = some w := by
  induction es with
  | nil => cases he
  | cons e' es ih =>
    simp only [dirScan]
    cases hds : dirScan p dp k es with
    | some w => exact ⟨w, rfl⟩
    | none =>
      rcases List.mem_cons.mp he with rfl | hmem
      · exact ⟨v, hr⟩
      · obtain ⟨w, hw⟩ := ih hmem
        rw [hds] at hw
        cases hw

/-- Introduction for `dirsScan`: a hitting directory makes the scan hit. -/
theorem dirsScan_isSome_of_mem {p : Platform} {k : Str} {ds : List Dir}
    {d : Dir} (hd : d ∈ ds) {w : BuildSystem}
    (hw : dirScan p d.path k (readEntries d) = some w) :
    ∃ w', dirsScan p k ds = some w' := by
  induction ds with
  | nil => cases hd
  | cons d' ds ih =>
    simp only [dirsScan]
    cases hds : dirsScan p k ds with
    | some w' => exact ⟨w', rfl⟩
    | none =>
      rcases List.mem_cons.mp hd with rfl | hmem
      · exact ⟨w, hw⟩
      · obtain ⟨w', hw'⟩ := ih hmem
        rw [hds] at hw'
        cases hw'

/-! ## Claim theorems -/

/-- C1: if the spawned child's stdout parses as a well-formed `Success`
response but the child exits with a non-zero code, `targets` returns the
`{path} exited with {code}` execution failure, discards the `Success` body
(no targets, accumulators untouched). -/
theorem targets_nonzero_exit_overrides_success
    (mgr : ExternalBuildMgr) (build_id : Str) (pn pr : String) (os : OsEnv)
    (warnings errors : List String) (runner : BuildSystem) (cio : ChildIO)
    (buffer : String) (tgts : List ExtTarget) (ws es : List String) (ecode : Int)
    (hbs : mgr.build_system build_id = .ok runner)
    (hspawn : os.spawn = some cio)
    (hwrite : cio.writeOk = true)
    (hread : cio.readResult = some buffer)
    (hparse : os.parse buffer = some (.Success tgts ws es))
    (hwait : cio.waitResult = some ecode)
    (hne : ecode ≠ 0) :
    mgr.targets build_id pn pr os warnings errors =
      some ⟨.error (.exitedWith runner.path ecode), warnings, errors, true, true⟩ := by
  simp [ExternalBuildMgr.targets, hbs, spawnChild, hspawn, hwrite, hread, hparse, hwait, hne]

/-- C1 witness: the python plugin exiting 1 with a parsed `Success` body. -/
theorem targets_nonzero_exit_overrides_success_witness :
    mgrOne.targets pyId "pkg" "/pkg" osExit1 [] [] =
      some ⟨.error (.exitedWith pyPath 1), [], [], true, true⟩ :=
  targets_nonzero_exit_overrides_success mgrOne pyId "pkg" "/pkg" osExit1 [] []
    (BuildSystem.new pyPath) cioExit1 "out" [tgtFoo] [] [] 1
    rfl rfl rfl rfl rfl rfl (by decide)

/-- C2: on a zero-exit `Success` response, each descriptor maps 1:1 — `Bin` to
`bin_target(name, src_path, None, Edition2021)`, `Lib` to
`lib_target(name, [library], src_path, Edition2021)` — and the response's
warnings and errors are appended, in order, to the caller accumulators,
with the call succeeding. -/
theorem targets_success_maps_descriptors
    (mgr : ExternalBuildMgr) (build_id : Str) (pn pr : String) (os : OsEnv)
    (warnings errors : List String) (runner : BuildSystem) (cio : ChildIO)
    (buffer : String) (tgts : List ExtTarget) (ws es : List String)
    (hbs : mgr.build_system build_id = .ok runner)
    (hspawn : os.spawn = some cio)
    (hwrite : cio.writeOk = true)
    (hread : cio.readResult = some buffer)
    (hparse : os.parse buffer = some (.Success tgts ws es))
    (hwait : cio.waitResult = some 0) :
    mgr.targets build_id pn pr os warnings errors =
      some ⟨.ok (tgts.map fun t =>
          match t.kind with
          | .Bin => Target.bin_target t.name t.src_path none .Edition2021
          | .Lib => Target.lib_target t.name [CrateType.Lib] t.src_path .Edition2021),
        warnings ++ ws, errors ++ es, true, true⟩ := by
  simp [ExternalBuildMgr.targets, hbs, spawnChild, hspawn, hwrite, hread, hparse, hwait,
    mkTargets_eq_map]

/-- C2 witness: a `Bin` and a `Lib` descriptor with one warning and one error. -/
theorem targets_success_maps_descriptors_witness :
    mgrOne.targets pyId "pkg" "/pkg" osExit0 ["w0"] [] =
      some ⟨.ok [Target.bin_target "foo" "src/main" none .Edition2021,
                 Target.lib_target "bar" [CrateType.Lib] "src/lib" .Edition2021],
        ["w0", "w1"], ["e1"], true, true⟩ :=
  targets_success_maps_descriptors mgrOne pyId "pkg" "/pkg" osExit0 ["w0"] []
    (BuildSystem.new pyPath) cioExit0 "out" [tgtFoo, tgtBar] ["w1"] ["e1"]
    rfl rfl rfl rfl rfl rfl

/-- C3: when the child's stdout does not parse as a well-formed
`TargetResult`, `targets` returns the `Invalid target result from {path}`
protocol error; the child's exit behaviour (`waitResult`) is unconstrained
and `wait()` is never even reached, so the parse error takes precedence over
any exit status, zero or not. -/
theorem targets_unparseable_output_protocol_error
    (mgr : ExternalBuildMgr) (build_id : Str) (pn pr : String) (os : OsEnv)
    (warnings errors : List String) (runner : BuildSystem) (cio : ChildIO)
    (buffer : String)
    (hbs : mgr.build_system build_id = .ok runner)
    (hspawn : os.spawn = some cio)
    (hwrite : cio.writeOk = true)
    (hread : cio.readResult = some buffer)
    (hparse : os.parse buffer = none) :
    mgr.targets build_id pn pr os warnings errors =
      some ⟨.error (.invalidTargetResult runner.path), warnings, errors, true, false⟩ := by
  simp [ExternalBuildMgr.targets, hbs, spawnChild, hspawn, hwrite, hread, hparse]

/-- C3 witness: the python plugin emitting undecodable output while exiting 0. -/
theorem targets_unparseable_output_protocol_error_witness :
    mgrOne.targets pyId "pkg" "/pkg" osBadParse [] [] =
      some ⟨.error (.invalidTargetResult pyPath), [], [], true, false⟩ :=
  targets_unparseable_output_protocol_error mgrOne pyId "pkg" "/pkg" osBadParse [] []
    (BuildSystem.new pyPath) cioExit0 "out"
    rfl rfl rfl rfl rfl

/-- C4: a child that exits 0 while emitting a well-formed `Failure` variant
makes `targets` return an error carrying exactly the variant's message
string; it is handled as an error, not rejected as inconsistent. -/
theorem targets_failure_variant_verbatim_message
    (mgr : ExternalBuildMgr) (build_id : Str) (pn pr : String) (os : OsEnv)
    (warnings errors : List String) (runner : BuildSystem) (cio : ChildIO)
    (buffer : String) (message : String)
    (hbs : mgr.build_system build_id = .ok runner)
    (hspawn : os.spawn = some cio)
    (hwrite : cio.writeOk = true)
    (hread : cio.readResult = some buffer)
    (hparse : os.parse buffer = some (.Failure message))
    (hwait : cio.waitResult = some 0) :
    mgr.targets build_id pn pr os warnings errors =
      some ⟨.error (.inBandFailure message), warnings, errors, true, true⟩ := by
  simp [ExternalBuildMgr.targets, hbs, spawnChild, hspawn, hwrite, hread, hparse, hwait]

/-- C4 witness: `{"Failure": {"message": "missing sources"}}` with exit 0. -/
theorem targets_failure_variant_verbatim_message_witness :
    mgrOne.targets pyId "pkg" "/pkg" osFailure [] [] =
      some ⟨.error (.inBandFailure "missing sources"), [], [], true, true⟩ :=
  targets_failure_variant_verbatim_message mgrOne pyId "pkg" "/pkg" osFailure [] []
    (BuildSystem.new pyPath) cioExit0 "out" "missing sources"
    rfl rfl rfl rfl rfl rfl

/-- C9: the code does NOT wait on the child on every exit path — on a
response-parse failure `targets` returns after spawning without ever calling
`child.wait()` (`spawned = true`, `waited = false`), so the exited child is
never reaped and stays a zombie until the host exits. -/
theorem targets_parse_failure_skips_wait :
    mgrOne.targets pyId "pkg" "/pkg" osBadParse [] [] =
      some ⟨.error (.invalidTargetResult pyPath), [], [], true, false⟩ := rfl

/-- C5: discovery registers an identifier if and only if some search-path
directory holds an entry whose filename is exactly
`cargobuild-<identifier><platform-exe-suffix>` and which passes the
executable check; everything else is excluded (and `new` is total, so the
exclusion raises no error). -/
theorem new_registers_iff (p : Platform) (ds : List Dir) (id : Str) :
    (∃ v, assocGet (ExternalBuildMgr.new p ds).build_systems id = some v) ↔
    (∃ d ∈ ds, ∃ e ∈ readEntries d, ∃ fn, e.filename = some fn ∧
      List.isPrefixOf pfxStr fn = true ∧
      List.isSuffixOf p.exe_suffix fn = true ∧
      is_executable p e.meta = true ∧
      fn = pfxStr ++ id ++ p.exe_suffix) := by
  constructor
  · rintro ⟨v, hv⟩
    rw [assocGet_new] at hv
    obtain ⟨d, hd, hscan⟩ := dirsScan_eq_some hv
    obtain ⟨e, he, hreg⟩ := dirScan_eq_some hscan
    obtain ⟨fn, hfn, hpre, hsuf, hex, hstrip, _⟩ := entryRegisters_eq_some hreg
    refine ⟨d, hd, e, he, fn, hfn, hpre, hsuf, hex, ?_⟩
    have hdec := filename_decomposition hpre hsuf
    rw [hstrip] at hdec
    exact hdec
  · rintro ⟨d, hd, e, he, fn, hfn, hpre, hsuf, hex, hdec⟩
    have hreg := entryRegisters_intro p d.path e id fn hfn hdec hex
    obtain ⟨w, hw⟩ := dirScan_isSome_of_mem he hreg
    obtain ⟨w', hw'⟩ := dirsScan_isSome_of_mem hd hw
    exact ⟨w', by rw [assocGet_new]; exact hw'⟩

/-- C5 witness: the python plugin file is registered from `[pluginsDir]`. -/
theorem new_registers_iff_witness :
    ∃ v, assocGet (ExternalBuildMgr.new .unix [pluginsDir]).build_systems pyId = some v :=
  (new_registers_iff .unix [pluginsDir] pyId).mpr
    ⟨pluginsDir, List.mem_singleton.mpr rfl, pyFile, by decide,
      "cargobuild-python".data, rfl, by decide, by decide, by decide, by decide⟩

/-- The key list stays duplicate-free through `assocInsert`. -/
theorem keys_nodup_assocInsert {m : List (Str × BuildSystem)} {k : Str}
    {v : BuildSystem} (h : (m.map Prod.fst).Nodup) :
    ((assocInsert m k v).map Prod.fst).Nodup := by
  unfold assocInsert
  rw [List.map_append]
  refine List.Nodup.append ?_ (List.nodup_singleton k) ?_
  · exact h.sublist ((List.filter_sublist _).map _)
  · intro a ha hb
    obtain ⟨q, hq, rfl⟩ := List.mem_map.mp ha
    have hne := List.of_mem_filter hq
    simp only [List.map_cons, List.map_nil, List.mem_singleton] at hb
    simp only [decide_not, Bool.not_eq_true', decide_eq_false_iff_not] at hne
    exact hne hb

/-- The key list stays duplicate-free through the discovery loop body. -/
theorem keys_nodup_registerEntry {p : Platform} {dp : Str}
    {bs : List (Str × BuildSystem)} {e : DirEntry}
    (h : (bs.map Prod.fst).Nodup) :
    ((registerEntry p dp bs e).map Prod.fst).Nodup := by
  unfold registerEntry
  split
  · exact h
  · split
    · exact h
    · split
      · exact keys_nodup_assocInsert h
      · exact h

/-- A discovered registry has duplicate-free keys. -/
theorem keys_nodup_new (p : Platform) (ds : List Dir) :
    ((ExternalBuildMgr.new p ds).build_systems.map Prod.fst).Nodup := by
  unfold ExternalBuildMgr.new
  suffices h : ∀ (ds : List Dir) (bs : List (Str × BuildSystem)),
      (bs.map Prod.fst).Nodup →
      ((ds.foldl
        (fun bs dir => (readEntries dir).foldl (registerEntry p dir.path) bs) bs).map
          Prod.fst).Nodup by
    exact h ds [] List.nodup_nil
  intro ds
  induction ds with
  | nil => intro bs hbs; exact hbs
  | cons d ds ih =>
    intro bs hbs
    refine ih _ ?_
    suffices h : ∀ (es : List DirEntry) (bs : List (Str × BuildSystem)),
        (bs.map Prod.fst).Nodup →
        ((es.foldl (registerEntry p d.path) bs).map Prod.fst).Nodup by
      exact h (readEntries d) bs hbs
    intro es
    induction es with
    | nil => intro bs hbs; exact hbs
    | cons e es ihe =>
      intro bs hbs
      exact ihe _ (keys_nodup_registerEntry hbs)

/-- A find hit pins the found pair's key. -/
theorem assocGet_mem_self {m : List (Str × BuildSystem)} {k : Str}
    {v : BuildSystem} (h : assocGet m k = some v) : (k, v) ∈ m := by
  unfold assocGet at h
  cases hf : m.find? (fun q => q.1 = k) with
  | none => rw [hf] at h; cases h
  | some kv =>
    rw [hf] at h
    have hm := List.mem_of_find?_eq_some hf
    have hp := List.find?_some hf
    simp only [decide_eq_true_eq] at hp
    cases h
    rw [← hp]
    simpa using hm

/-- With duplicate-free keys, a bound key occurs in exactly one pair. -/
theorem countP_key_eq_one {m : List (Str × BuildSystem)} {k : Str}
    {v : BuildSystem} (hnd : (m.map Prod.fst).Nodup)
    (h : assocGet m k = some v) :
    m.countP (fun kv => kv.1 = k) = 1 := by
  induction m with
  | nil => cases h
  | cons kv m ih =>
    rw [List.map_cons, List.nodup_cons] at hnd
    rw [assocGet_cons] at h
    by_cases hk : kv.1 = k
    · rw [List.countP_cons_of_pos _ _ (by simp [hk])]
      have htail : m.countP (fun q => q.1 = k) = 0 := by
        rw [List.countP_eq_zero]
        intro q hq
        simp only [decide_eq_true_eq]
        intro hqk
        exact hnd.1 (List.mem_map.mpr ⟨q, hq, by rw [hqk, hk]⟩)
      rw [htail]
    · rw [if_neg hk] at h
      rw [List.countP_cons_of_neg _ _ (by simp [hk])]
      exact ih hnd.2 h

/-- A non-empty candidate list always yields a scan result. -/
theorem closestScan_isSome (t : Str) {cs : List Str} (h : cs ≠ []) :
    (closestScan t cs).isSome = true := by
  cases cs with
  | nil => exact absurd rfl h
  | cons c cs =>
    simp only [closestScan]
    cases hs : closestScan t cs with
    | none => rfl
    | some dc =>
      rcases dc with ⟨d', c'⟩
      by_cases hle : lev t c ≤ d' <;> simp [hle]

/-- What a scan hit means: the candidate is in the list at the recorded
distance, and no candidate is closer. -/
theorem closestScan_spec {t : Str} {cs : List Str} {d : Nat} {c : Str}
    (h : closestScan t cs = some (d, c)) :
    c ∈ cs ∧ d = lev t c ∧ ∀ c' ∈ cs, d ≤ lev t c' := by
  induction cs generalizing d c with
  | nil => cases h
  | cons x xs ih =>
    simp only [closestScan] at h
    cases hs : closestScan t xs with
    | none =>
      rw [hs] at h
      obtain ⟨rfl, rfl⟩ : d = lev t x ∧ c = x := by
        cases h; exact ⟨rfl, rfl⟩
      refine ⟨List.mem_cons_self _ _, rfl, ?_⟩
      intro c' hc'
      rcases List.mem_cons.mp hc' with rfl | hmem
      · exact le_refl _
      · cases hxs : xs with
        | nil => rw [hxs] at hmem; cases hmem
        | cons y ys =>
          rw [hxs] at hs
          have hne9 : (y :: ys : List Str) ≠ [] := by simp
          have := closestScan_isSome t hne9
          rw [hs] at this
          cases this
    | some dc =>
      rcases dc with ⟨d', c'⟩
      rw [hs] at h
      dsimp only at h
      obtain ⟨hmem', hd', hmin'⟩ := ih hs
      by_cases hle : lev t x ≤ d'
      · rw [if_pos hle] at h
        obtain ⟨rfl, rfl⟩ : d = lev t x ∧ c = x := by
          cases h; exact ⟨rfl, rfl⟩
        refine ⟨List.mem_cons_self _ _, rfl, ?_⟩
        intro c'' hc''
        rcases List.mem_cons.mp hc'' with rfl | hmem
        · exact le_refl _
        · exact le_trans hle (hmin' c'' hmem)
      · rw [if_neg hle] at h
        obtain ⟨rfl, rfl⟩ : d = d' ∧ c = c' := by
          cases h; exact ⟨rfl, rfl⟩
        refine ⟨List.mem_cons_of_mem _ hmem', hd', ?_⟩
        intro c'' hc''
        rcases List.mem_cons.mp hc'' with rfl | hmem
        · omega
        · exact hmin' c'' hmem

/-- C6: a lookup miss yields the `Unknown build system` error carrying the
requested identifier and a suggestion that is `some` exactly when a
registered identifier lies within the edit-distance threshold, in which case
it is a best (minimal-distance, in-threshold) registered identifier; the
lookup is a pure function of the registry contents. -/
theorem build_system_unknown_plugin (mgr : ExternalBuildMgr) (build_id : Str)
    (hmiss : assocGet mgr.build_systems build_id = none) :
    ∃ sugg,
      mgr.build_system build_id = .error (.unknownBuildSystem build_id sugg) ∧
      (sugg.isSome = true ↔
        ∃ c ∈ mgr.build_systems.map Prod.fst, lev build_id c ≤ levThreshold) ∧
      ∀ c, sugg = some c →
        c ∈ mgr.build_systems.map Prod.fst ∧ lev build_id c ≤ levThreshold ∧
        ∀ c' ∈ mgr.build_systems.map Prod.fst, lev build_id c ≤ lev build_id c' := by
  refine ⟨closest_msg build_id (mgr.build_systems.map Prod.fst), ?_, ?_, ?_⟩
  · unfold ExternalBuildMgr.build_system
    rw [hmiss]
  · unfold closest_msg
    cases hs : closestScan build_id (mgr.build_systems.map Prod.fst) with
    | none =>
      constructor
      · intro h; cases h
      · rintro ⟨c, hc, _⟩
        have hne : mgr.build_systems.map Prod.fst ≠ [] := by
          intro he; rw [he] at hc; cases hc
        have := closestScan_isSome build_id hne
        rw [hs] at this
        cases this
    | some dc =>
      rcases dc with ⟨d, c⟩
      dsimp only
      obtain ⟨hmem, hd, hmin⟩ := closestScan_spec hs
      by_cases hle : d ≤ levThreshold
      · rw [if_pos hle]
        exact ⟨fun _ => ⟨c, hmem, hd ▸ hle⟩, fun _ => rfl⟩
      · rw [if_neg hle]
        constructor
        · intro h; cases h
        · rintro ⟨c', hc', hle'⟩
          exact absurd (le_trans (hmin c' hc') hle') hle
  · intro c hc
    unfold closest_msg at hc
    cases hs : closestScan build_id (mgr.build_systems.map Prod.fst) with
    | none => rw [hs] at hc; cases hc
    | some dc =>
      rcases dc with ⟨d, c₀⟩
      rw [hs] at hc
      dsimp only at hc
      obtain ⟨hmem, hd, hmin⟩ := closestScan_spec hs
      by_cases hle : d ≤ levThreshold
      · rw [if_pos hle] at hc
        cases hc
        exact ⟨hmem, hd ▸ hle, fun c' hc' => hd ▸ hmin c' hc'⟩
      · rw [if_neg hle] at hc
        cases hc

/-- C6 witness: looking up `pythn` when only `python` is registered misses
with the suggestion present, best, and equal to a registered identifier. -/
theorem build_system_unknown_plugin_witness :
    ∃ sugg,
      mgrOne.build_system "pythn".data =
        .error (.unknownBuildSystem "pythn".data sugg) ∧
      (sugg.isSome = true ↔
        ∃ c ∈ mgrOne.build_systems.map Prod.fst, lev "pythn".data c ≤ levThreshold) ∧
      ∀ c, sugg = some c →
        c ∈ mgrOne.build_systems.map Prod.fst ∧
        lev "pythn".data c ≤ levThreshold ∧
        ∀ c' ∈ mgrOne.build_systems.map Prod.fst,
          lev "pythn".data c ≤ lev "pythn".data c' :=
  build_system_unknown_plugin mgrOne "pythn".data rfl

/-- C8: when two search-path directories each hold a plugin file for the same
identifier, the registry has exactly one entry for it, and the binding is the
one the later directory alone would produce. -/
theorem same_id_later_directory_wins (p : Platform) (d1 d2 : Dir) (id : Str)
    (h1 : ∃ e ∈ readEntries d1, ∃ fn, e.filename = some fn ∧
      fn = pfxStr ++ id ++ p.exe_suffix ∧ is_executable p e.meta = true)
    (h2 : ∃ e ∈ readEntries d2, ∃ fn, e.filename = some fn ∧
      fn = pfxStr ++ id ++ p.exe_suffix ∧ is_executable p e.meta = true) :
    (ExternalBuildMgr.new p [d1, d2]).build_systems.countP
      (fun kv => kv.1 = id) = 1 ∧
    assocGet (ExternalBuildMgr.new p [d1, d2]).build_systems id =
      assocGet (ExternalBuildMgr.new p [d2]).build_systems id := by
  obtain ⟨e, he, fn, hfn, hdec, hex⟩ := h2
  have hreg := entryRegisters_intro p d2.path e id fn hfn hdec hex
  obtain ⟨w, hw⟩ := dirScan_isSome_of_mem he hreg
  have hpair : dirsScan p id [d1, d2] = some w ∧ dirsScan p id [d2] = some w := by
    simp only [dirsScan]
    rw [hw]
    exact ⟨rfl, rfl⟩
  constructor
  · exact countP_key_eq_one (keys_nodup_new p [d1, d2])
      ((assocGet_new p [d1, d2] id).trans hpair.1)
  · rw [assocGet_new, assocGet_new, hpair.1, hpair.2]

/-- A second directory carrying the python plugin under another path. -/
def altDir : Dir := { path := "/alt".data, entries := some [some pyFile] }

/-- C8 witness: the python identifier appearing in `/plugins` and `/alt`
yields one entry, resolved as from `/alt` alone. -/
theorem same_id_later_directory_wins_witness :
    (ExternalBuildMgr.new .unix [pluginsDir, altDir]).build_systems.countP
      (fun kv => kv.1 = pyId) = 1 ∧
    assocGet (ExternalBuildMgr.new .unix [pluginsDir, altDir]).build_systems pyId =
      assocGet (ExternalBuildMgr.new .unix [altDir]).build_systems pyId :=
  same_id_later_directory_wins .unix pluginsDir altDir pyId
    ⟨pyFile, by decide, "cargobuild-python".data, rfl, by decide, by decide⟩
    ⟨pyFile, by decide, "cargobuild-python".data, rfl, by decide, by decide⟩

/-- C7: the function `toolchain_hash` is the hardcoded placeholder `0` (`// TODO: FIXME`
in `BuildSystem::new`) for every plugin a registry can register, so while it
is trivially stable across repeated calls, it can never differ between two
meaningfully different plugin binaries — cached build outputs tied to an old
toolchain are not invalidated. -/
theorem toolchain_hash_always_zero
    (p : Platform) (dirs : List Dir) (build_id : Str)
    (h : (assocGet (ExternalBuildMgr.new p dirs).build_systems build_id).isSome = true) :
    (ExternalBuildMgr.new p dirs).toolchain_hash build_id = .ok 0 := by
  rcases hg : assocGet (ExternalBuildMgr.new p dirs).build_systems build_id with _ | r
  · rw [hg] at h; simp at h
  · obtain ⟨k', hk⟩ := assocGet_mem hg
    have h0 : r.hash = 0 := new_hash_zero p dirs (k', r) hk
    unfold ExternalBuildMgr.toolchain_hash ExternalBuildMgr.build_system
    rw [hg]
    simp [Except.map, h0]

/-- C7 witness: the python and go plugins are different binaries in different
directories, yet both toolchain hashes evaluate to 0. -/
theorem toolchain_hash_always_zero_witness :
    mgrTwo.toolchain_hash pyId = .ok 0 ∧ mgrTwo.toolchain_hash goId = .ok 0 :=
  ⟨toolchain_hash_always_zero .unix [pluginsDir, toolsDir] pyId rfl,
   toolchain_hash_always_zero .unix [pluginsDir, toolsDir] goId rfl⟩

/-- C10: the function `targets` never panics: the two `unwrap()` calls on the child's
stdin and stdout handles always succeed, because both streams are configured
as `Stdio::piped()` on the command before it is spawned. -/
theorem targets_unwraps_never_panic
    (mgr : ExternalBuildMgr) (build_id : Str) (pn pr : String) (os : OsEnv)
    (warnings errors : List String) :
    ∃ out, mgr.targets build_id pn pr os warnings errors = some out := by
  rw [← Option.ne_none_iff_exists']
  unfold ExternalBuildMgr.targets
  cases hbs : mgr.build_system build_id with
  | error e => simp
  | ok runner =>
    cases hspawn : os.spawn with
    | none => simp [spawnChild, hspawn]
    | some cio =>
      simp only [spawnChild, hspawn, Option.map_some]
      cases hw : cio.writeOk <;>
        cases hr : cio.readResult <;>
          simp_all [spawnChild]
      cases hp : os.parse _ with
      | none => simp
      | some json_result =>
        cases hwait : cio.waitResult with
        | none => simp
        | some ecode =>
          by_cases he : ecode = 0 <;>
            cases json_result <;>
              simp_all <;>
                cases hmk : mkTargets _ <;> simp
